import Mathlib

/-!
Verification of the F1-Dashboard lap-position comparison engine.

Shallow embedding of the pure data-transformation core of
`app/visualizer.py` (coordinate normalization, path distance profiling,
cross-driver delta comparison, and the comparison entry point) and of the
lap-window resolution logic of `app/data_loader.py`.

Timestamps and coordinates are modelled as real numbers; a pandas
DataFrame column becomes a Lean `List`; a missing (NaN) value becomes
`Option.none`; a function that shows a warning and returns `None`
becomes a function returning `Option.none`.
-/

/-- One raw telemetry row of a location DataFrame: `date` (absolute time in
seconds), `x`, `y` (track coordinates). Mirrors the columns used by
`calculate_time_delta_by_position`. -/
structure Sample where
  date : ℝ
  x : ℝ
  y : ℝ

/-- `driver_data.sort_values('date')`: stable sort of the rows by date. -/
noncomputable def sortByDate (l : List Sample) : List Sample :=
  l.mergeSort (fun a b => decide (a.date ≤ b.date))

/-- `d['date'].min()`: minimum of the date column (0 on an empty frame,
never used there). -/
noncomputable def datesMin : List Sample → ℝ
  | [] => 0
  | s :: rest => rest.foldl (fun m t => min m t.date) s.date

/-- `np.sqrt(dx**2 + dy**2)` for the step from row `p` to row `q`. -/
noncomputable def euclid (p q : Sample) : ℝ :=
  Real.sqrt ((q.x - p.x) ^ 2 + (q.y - p.y) ^ 2)

/-- The loop `d.loc[i,'distance'] = d.loc[i-1,'distance'] + sqrt(dx^2+dy^2)`
continued from a previous row `prev` with accumulated distance `acc`. -/
noncomputable def cumDistFrom (prev : Sample) (acc : ℝ) : List Sample → List ℝ
  | [] => []
  | s :: rest => (acc + euclid prev s) :: cumDistFrom s (acc + euclid prev s) rest

/-- The `distance` column: 0 at index 0, then the cumulative Euclidean
path length. -/
noncomputable def cumDist : List Sample → List ℝ
  | [] => []
  | s :: rest => 0 :: cumDistFrom s 0 rest

/-- `series.max()` (0 on an empty column, never used there). -/
noncomputable def listMax : List ℝ → ℝ
  | [] => 0
  | a :: t => t.foldl max a

/-- `series.min()` (0 on an empty column, never used there). -/
noncomputable def listMin : List ℝ → ℝ
  | [] => 0
  | a :: t => t.foldl min a

/-- A row after the profiling phase of `calculate_time_delta_by_position`:
the raw columns plus `elapsed_time`, `distance` and `distance_pct`. -/
structure ProfSample where
  date : ℝ
  x : ℝ
  y : ℝ
  elapsed_time : ℝ
  distance : ℝ
  distance_pct : ℝ

/-- The profiling phase of `calculate_time_delta_by_position` for one
driver: sort by date, `elapsed_time = date - date.min()`, cumulative
`distance`, and `distance_pct = distance / distance.max() * 100` when the
maximum is positive, else 0. -/
noncomputable def profile (l : List Sample) : List ProfSample :=
  let m := sortByDate l
  let t0 := datesMin m
  let cds := cumDist m
  let mx := listMax cds
  (m.zip cds).map (fun p =>
    { date := p.1.date, x := p.1.x, y := p.1.y,
      elapsed_time := p.1.date - t0,
      distance := p.2,
      distance_pct := if 0 < mx then p.2 / mx * 100 else 0 })

/-- The running state of `(d2['distance_pct'] - dist_pct).abs().idxmin()`:
keep the current best row, replace it only on a strictly smaller absolute
difference, so the earliest row wins ties — exactly pandas `idxmin`,
which returns the first index attaining the minimum. -/
noncomputable def nearestFrom (t : ℝ) (best : ProfSample) : List ProfSample → ProfSample
  | [] => best
  | s :: rest =>
    if |s.distance_pct - t| < |best.distance_pct - t| then nearestFrom t s rest
    else nearestFrom t best rest

/-- The row of the opponent frame selected by
`idx = (opp['distance_pct'] - t).abs().idxmin()` followed by `opp.loc[idx]`. -/
noncomputable def nearest (t : ℝ) : List ProfSample → ProfSample
  | [] => ⟨0, 0, 0, 0, 0, 0⟩
  | s :: rest => nearestFrom t s rest

/-- A row after the comparison loops: the profiled columns plus
`time_delta` and `faster_driver`. -/
structure AnnotSample where
  date : ℝ
  x : ℝ
  y : ℝ
  elapsed_time : ℝ
  distance : ℝ
  distance_pct : ℝ
  time_delta : ℝ
  faster_driver : String

/-- One comparison loop of `calculate_time_delta_by_position`: for every
row of `mine`, match the opponent row with nearest `distance_pct`,
set `time_delta = elapsed_time - matched.elapsed_time` and
`faster_driver = myName` when `time_delta < 0`, else `oppName`. -/
noncomputable def annotate (mine opp : List ProfSample) (myName oppName : String) :
    List AnnotSample :=
  mine.map (fun s =>
    let m := nearest s.distance_pct opp
    let td := s.elapsed_time - m.elapsed_time
    { date := s.date, x := s.x, y := s.y, elapsed_time := s.elapsed_time,
      distance := s.distance, distance_pct := s.distance_pct,
      time_delta := td,
      faster_driver := if td < 0 then myName else oppName })

/-- `calculate_time_delta_by_position(driver1_data, driver2_data,
driver1_name, driver2_name)` of `app/visualizer.py`: profile both frames,
then run the two independent comparison loops. -/
noncomputable def calculate_time_delta_by_position
    (d1 d2 : List Sample) (n1 n2 : String) :
    List AnnotSample × List AnnotSample :=
  (annotate (profile d1) (profile d2) n1 n2,
   annotate (profile d2) (profile d1) n2 n1)

/-- A row of the frame handed to `normalize_coordinates`: the `x` and `y`
columns, either of which may be missing (NaN). -/
structure LocRow where
  x : Option ℝ
  y : Option ℝ

/-- A row produced by `normalize_coordinates`: surviving coordinates plus
`x_norm` and `y_norm`. -/
structure NormRow where
  x : ℝ
  y : ℝ
  x_norm : ℝ
  y_norm : ℝ

/-- `df.dropna(subset=['x','y'])`: keep only rows with both coordinates. -/
def dropna (l : List LocRow) : List (ℝ × ℝ) :=
  l.filterMap (fun r => match r.x, r.y with
    | some a, some b => some (a, b)
    | _, _ => none)

/-- `normalize_coordinates(location_df)` of `app/visualizer.py`: return the
(empty) frame unchanged when empty, drop rows with missing coordinates,
return empty when nothing survives, otherwise rescale by the coordinate
ranges, with a range of 1 substituted when max equals min. -/
noncomputable def normalize_coordinates (l : List LocRow) : List NormRow :=
  if l.isEmpty then []
  else
    let kept := dropna l
    if kept.isEmpty then []
    else
      let xmin := listMin (kept.map Prod.fst)
      let xmax := listMax (kept.map Prod.fst)
      let ymin := listMin (kept.map Prod.snd)
      let ymax := listMax (kept.map Prod.snd)
      let xr := if xmax ≠ xmin then xmax - xmin else 1
      let yr := if ymax ≠ ymin then ymax - ymin else 1
      kept.map (fun p => ⟨p.1, p.2, (p.1 - xmin) / xr, (p.2 - ymin) / yr⟩)

/-- `combined_df = pd.concat([d1_processed, d2_processed])`: the union of
the two processed frames, handed to `normalize_coordinates` so both paths
share one coordinate frame. -/
noncomputable def combinedFrame (d1 d2 : List Sample) (n1 n2 : String) :
    List AnnotSample :=
  (calculate_time_delta_by_position d1 d2 n1 n2).1 ++
    (calculate_time_delta_by_position d1 d2 n1 n2).2

/-- The data path of `plot_lap_comparison_on_track` of `app/visualizer.py`
for two drivers: when either frame is empty, warn and return `None`;
otherwise run `calculate_time_delta_by_position`, concatenate the two
processed frames, and normalize the union so both paths share one
coordinate frame (returning `None` when normalization yields nothing).
The figure construction itself is presentation and is not modelled. -/
noncomputable def plot_lap_comparison_on_track
    (d1 d2 : List Sample) (n1 n2 : String) : Option (List NormRow) :=
  if d1.isEmpty || d2.isEmpty then none
  else
    let combined := (combinedFrame d1 d2 n1 n2).map
      (fun s => (⟨some s.x, some s.y⟩ : LocRow))
    let nd := normalize_coordinates combined
    if nd.isEmpty then none else some nd

/-- One row of the lap-timing frame used by `fetch_location_for_lap` of
`app/data_loader.py`: driver number, lap number, lap start time (seconds)
and optional lap duration (None models a NaN `lap_duration`). -/
structure LapRec where
  driver_number : ℕ
  lap_number : ℕ
  date_start : ℝ
  lap_duration : Option ℝ

/-- The row lookup `lap_data[(lap_data['driver_number'] == str(d)) &
(lap_data['lap_number'] == n)]` followed by `.iloc[0]`. -/
def findLap (lap_data : List LapRec) (d n : ℕ) : Option LapRec :=
  (lap_data.filter (fun r => r.driver_number == d && r.lap_number == n)).head?

/-- The lap-window resolution of `fetch_location_for_lap` of
`app/data_loader.py` (the part before the HTTP request): find the timing
row; fail when absent; end the window at `start + lap_duration` when the
duration is present, else at the next lap's recorded start, else at
`start + 120` seconds. -/
noncomputable def fetch_location_for_lap
    (lap_data : List LapRec) (d n : ℕ) : Option (ℝ × ℝ) :=
  match findLap lap_data d n with
  | none => none
  | some r =>
    match r.lap_duration with
    | some dur => some (r.date_start, r.date_start + dur)
    | none =>
      match findLap lap_data d (n + 1) with
      | some nxt => some (r.date_start, nxt.date_start)
      | none => some (r.date_start, r.date_start + 120)

/-- The spec's reference scenario, driver A: samples at t = 0, 1, 2 s at
x = 0, 10, 20, y = 0. -/
noncomputable def pathA : List Sample := [⟨0, 0, 0⟩, ⟨1, 10, 0⟩, ⟨2, 20, 0⟩]

/-- The spec's reference scenario, driver B: samples at t = 0, 3 s at
x = 0, 20, y = 0. -/
noncomputable def pathB : List Sample := [⟨0, 0, 0⟩, ⟨3, 20, 0⟩]

/-- A stationary path: two samples one second apart at the same position. -/
noncomputable def pathStat : List Sample := [⟨0, 0, 0⟩, ⟨1, 0, 0⟩]

/-- A short path along the x axis. -/
noncomputable def pathD : List Sample := [⟨0, 0, 0⟩, ⟨1, 10, 0⟩]

/-- A short path along the y axis. -/
noncomputable def pathE : List Sample := [⟨0, 0, 0⟩, ⟨2, 0, 30⟩]

/-- A one-row lap-timing frame: driver 44, lap 5, start 100 s, NaN duration. -/
noncomputable def lapDataW : List LapRec := [⟨44, 5, 100, none⟩]

/-- Two location rows with equal x values and distinct y values. -/
noncomputable def rowsW : List LocRow := [⟨some 5, some 1⟩, ⟨some 5, some 2⟩]

instance : Inhabited Sample := ⟨⟨0, 0, 0⟩⟩

instance : Inhabited ProfSample := ⟨⟨0, 0, 0, 0, 0, 0⟩⟩

instance : Inhabited AnnotSample := ⟨⟨0, 0, 0, 0, 0, 0, 0, ""⟩⟩

theorem cumDistFrom_length (rest : List Sample) :
    ∀ (prev : Sample) (acc : ℝ), (cumDistFrom prev acc rest).length = rest.length := by
  induction rest with
  | nil => intro prev acc; rfl
  | cons s rest ih => intro prev acc; simp [cumDistFrom, ih]

theorem cumDist_length (l : List Sample) : (cumDist l).length = l.length := by
  cases l with
  | nil => rfl
  | cons s rest => simp [cumDist, cumDistFrom_length]

theorem sortByDate_length (l : List Sample) : (sortByDate l).length = l.length :=
  (List.mergeSort_perm l _).length_eq

theorem profile_length (l : List Sample) : (profile l).length = (sortByDate l).length := by
  simp [profile, List.length_zip, cumDist_length]

theorem cumDistFrom_getD_succ (rest : List Sample) :
    ∀ (prev : Sample) (acc : ℝ) (i : ℕ), i + 1 < rest.length →
      (cumDistFrom prev acc rest).getD (i + 1) 0 =
        (cumDistFrom prev acc rest).getD i 0 +
          euclid (rest.getD i default) (rest.getD (i + 1) default) := by
  induction rest with
  | nil => intro prev acc i hi; simp at hi
  | cons s rest ih =>
    intro prev acc i hi
    cases i with
    | zero =>
      cases rest with
      | nil => simp at hi
      | cons s2 rest2 => simp [cumDistFrom]
    | succ j =>
      have hj : j + 1 < rest.length := by simpa using hi
      simp only [cumDistFrom, List.getD_cons_succ]
      exact ih s (acc + euclid prev s) j hj

theorem cumDist_getD_zero (l : List Sample) (h : l ≠ []) : (cumDist l).getD 0 0 = 0 := by
  cases l with
  | nil => exact absurd rfl h
  | cons s rest => simp [cumDist]

theorem cumDist_getD_succ (l : List Sample) (i : ℕ) (hi : i + 1 < l.length) :
    (cumDist l).getD (i + 1) 0 =
      (cumDist l).getD i 0 + euclid (l.getD i default) (l.getD (i + 1) default) := by
  cases l with
  | nil => simp at hi
  | cons s rest =>
    cases i with
    | zero =>
      cases rest with
      | nil => simp at hi
      | cons s2 rest2 => simp [cumDist, cumDistFrom]
    | succ j =>
      have hj : j + 1 < rest.length := by simpa using hi
      simp only [cumDist, List.getD_cons_succ]
      exact cumDistFrom_getD_succ rest s 0 j hj

theorem sortByDate_pairwise (l : List Sample) :
    List.Pairwise (fun a b => a.date ≤ b.date) (sortByDate l) := by
  have h := @List.sorted_mergeSort Sample (fun a b => decide (a.date ≤ b.date))
    (fun a b c hab hbc => by
      simp only [decide_eq_true_eq] at hab hbc ⊢
      exact le_trans hab hbc)
    (fun a b => by
      simp only [Bool.or_eq_true, decide_eq_true_eq]
      exact le_total a.date b.date) l
  exact h.imp (fun hab => by simpa using hab)

theorem foldl_min_date (rest : List Sample) :
    ∀ a : ℝ, (∀ t ∈ rest, a ≤ t.date) →
      rest.foldl (fun m t => min m t.date) a = a := by
  induction rest with
  | nil => intro a _; rfl
  | cons s rest ih =>
    intro a h
    have h1 : min a s.date = a := min_eq_left (h s (List.mem_cons_self s rest))
    simp only [List.foldl_cons, h1]
    exact ih a (fun t ht => h t (List.mem_cons_of_mem s ht))

theorem datesMin_of_sorted (l : List Sample)
    (hs : List.Pairwise (fun a b => a.date ≤ b.date) l) (h : l ≠ []) :
    datesMin l = (l.getD 0 default).date := by
  cases l with
  | nil => exact absurd rfl h
  | cons s rest =>
    simp only [datesMin, List.getD_cons_zero]
    rw [List.pairwise_cons] at hs
    exact foldl_min_date rest s.date (fun t ht => hs.1 t ht)

theorem profile_getD (l : List Sample) (i : ℕ) (hi : i < (sortByDate l).length) :
    (profile l).getD i default =
      { date := ((sortByDate l).getD i default).date,
        x := ((sortByDate l).getD i default).x,
        y := ((sortByDate l).getD i default).y,
        elapsed_time := ((sortByDate l).getD i default).date - datesMin (sortByDate l),
        distance := (cumDist (sortByDate l)).getD i 0,
        distance_pct :=
          if 0 < listMax (cumDist (sortByDate l)) then
            (cumDist (sortByDate l)).getD i 0 / listMax (cumDist (sortByDate l)) * 100
          else 0 } := by
  have hlen : i < (profile l).length := by rw [profile_length]; exact hi
  have hcd : i < (cumDist (sortByDate l)).length := by rw [cumDist_length]; exact hi
  rw [List.getD_eq_getElem _ _ hlen]
  simp only [profile, List.getElem_map, List.getElem_zip]
  rw [List.getD_eq_getElem _ _ hi, List.getD_eq_getElem _ _ hcd]

theorem nearestFrom_spec (t : ℝ) (rest : List ProfSample) :
    ∀ best : ProfSample,
      (nearestFrom t best rest = best ∧
        ∀ s ∈ rest, |best.distance_pct - t| ≤ |s.distance_pct - t|) ∨
      (∃ k, k < rest.length ∧ nearestFrom t best rest = rest.getD k default ∧
        |(rest.getD k default).distance_pct - t| < |best.distance_pct - t| ∧
        (∀ j, j < rest.length →
          |(rest.getD k default).distance_pct - t| ≤
            |(rest.getD j default).distance_pct - t|) ∧
        (∀ j, j < k →
          |(rest.getD k default).distance_pct - t| <
            |(rest.getD j default).distance_pct - t|)) := by
  induction rest with
  | nil => intro best; left; exact ⟨rfl, by simp⟩
  | cons s rest ih =>
    intro best
    by_cases hc : |s.distance_pct - t| < |best.distance_pct - t|
    · have hrw : nearestFrom t best (s :: rest) = nearestFrom t s rest := by
        simp [nearestFrom, hc]
      rcases ih s with ⟨heq, hmin⟩ | ⟨k, hk, heq, hlt, hmin, hbefore⟩
      · right
        refine ⟨0, by simp, ?_, ?_, ?_, ?_⟩
        · rw [hrw, heq]; simp
        · simpa using hc
        · intro j hj
          cases j with
          | zero => simp
          | succ j2 =>
            simp only [List.getD_cons_zero, List.getD_cons_succ]
            have hj2 : j2 < rest.length := by simpa using hj
            rw [List.getD_eq_getElem _ _ hj2]
            exact hmin _ (List.getElem_mem hj2)
        · intro j hj
          exact absurd hj (Nat.not_lt_zero j)
      · right
        refine ⟨k + 1, by simpa using hk, ?_, ?_, ?_, ?_⟩
        · rw [hrw, heq]; simp
        · simp only [List.getD_cons_succ]
          exact lt_trans hlt hc
        · intro j hj
          cases j with
          | zero =>
            simp only [List.getD_cons_succ, List.getD_cons_zero]
            exact le_of_lt hlt
          | succ j2 =>
            simp only [List.getD_cons_succ]
            exact hmin j2 (by simpa using hj)
        · intro j hj
          cases j with
          | zero =>
            simp only [List.getD_cons_succ, List.getD_cons_zero]
            exact hlt
          | succ j2 =>
            simp only [List.getD_cons_succ]
            exact hbefore j2 (by omega)
    · have hrw : nearestFrom t best (s :: rest) = nearestFrom t best rest := by
        simp [nearestFrom, hc]
      have hbs : |best.distance_pct - t| ≤ |s.distance_pct - t| := not_lt.mp hc
      rcases ih best with ⟨heq, hmin⟩ | ⟨k, hk, heq, hlt, hmin, hbefore⟩
      · left
        refine ⟨hrw.trans heq, ?_⟩
        intro s2 hs2
        rcases List.mem_cons.mp hs2 with h1 | h2
        · rw [h1]; exact hbs
        · exact hmin s2 h2
      · right
        refine ⟨k + 1, by simpa using hk, ?_, ?_, ?_, ?_⟩
        · rw [hrw, heq]; simp
        · simp only [List.getD_cons_succ]
          exact hlt
        · intro j hj
          cases j with
          | zero =>
            simp only [List.getD_cons_succ, List.getD_cons_zero]
            exact le_trans (le_of_lt hlt) hbs
          | succ j2 =>
            simp only [List.getD_cons_succ]
            exact hmin j2 (by simpa using hj)
        · intro j hj
          cases j with
          | zero =>
            simp only [List.getD_cons_succ, List.getD_cons_zero]
            exact lt_of_lt_of_le hlt hbs
          | succ j2 =>
            simp only [List.getD_cons_succ]
            exact hbefore j2 (by omega)

theorem nearest_spec (t : ℝ) (l : List ProfSample) (h : l ≠ []) :
    ∃ k, k < l.length ∧ nearest t l = l.getD k default ∧
      (∀ j, j < l.length →
        |(l.getD k default).distance_pct - t| ≤ |(l.getD j default).distance_pct - t|) ∧
      (∀ j, j < k →
        |(l.getD k default).distance_pct - t| < |(l.getD j default).distance_pct - t|) := by
  cases l with
  | nil => exact absurd rfl h
  | cons s rest =>
    rcases nearestFrom_spec t rest s with ⟨heq, hmin⟩ | ⟨k, hk, heq, hlt, hmin, hbefore⟩
    · refine ⟨0, by simp, by simp [nearest, heq], ?_, ?_⟩
      · intro j hj
        cases j with
        | zero => simp
        | succ j2 =>
          simp only [List.getD_cons_zero, List.getD_cons_succ]
          have hj2 : j2 < rest.length := by simpa using hj
          rw [List.getD_eq_getElem _ _ hj2]
          exact hmin _ (List.getElem_mem hj2)
      · intro j hj
        exact absurd hj (Nat.not_lt_zero j)
    · refine ⟨k + 1, by simpa using hk, by simp [nearest, heq], ?_, ?_⟩
      · intro j hj
        cases j with
        | zero =>
          simp only [List.getD_cons_succ, List.getD_cons_zero]
          exact le_of_lt hlt
        | succ j2 =>
          simp only [List.getD_cons_succ]
          exact hmin j2 (by simpa using hj)
      · intro j hj
        cases j with
        | zero =>
          simp only [List.getD_cons_succ, List.getD_cons_zero]
          exact hlt
        | succ j2 =>
          simp only [List.getD_cons_succ]
          exact hbefore j2 (by omega)

theorem annotate_length (mine opp : List ProfSample) (a b : String) :
    (annotate mine opp a b).length = mine.length := by
  simp [annotate]

theorem annotate_getD (mine opp : List ProfSample) (a b : String) (i : ℕ)
    (hi : i < mine.length) :
    (annotate mine opp a b).getD i default =
      { date := (mine.getD i default).date, x := (mine.getD i default).x,
        y := (mine.getD i default).y,
        elapsed_time := (mine.getD i default).elapsed_time,
        distance := (mine.getD i default).distance,
        distance_pct := (mine.getD i default).distance_pct,
        time_delta := (mine.getD i default).elapsed_time -
          (nearest (mine.getD i default).distance_pct opp).elapsed_time,
        faster_driver :=
          if (mine.getD i default).elapsed_time -
              (nearest (mine.getD i default).distance_pct opp).elapsed_time < 0
          then a else b } := by
  have hlen : i < (annotate mine opp a b).length := by rw [annotate_length]; exact hi
  rw [List.getD_eq_getElem _ _ hlen]
  simp only [annotate, List.getElem_map]
  rw [List.getD_eq_getElem _ _ hi]

theorem foldl_max_all_eq (t : List ℝ) :
    ∀ a c : ℝ, a = c → (∀ v ∈ t, v = c) → t.foldl max a = c := by
  induction t with
  | nil => intro a c ha _; simpa using ha
  | cons v t ih =>
    intro a c ha hv
    have hv0 : v = c := hv v (List.mem_cons_self v t)
    have hm : max a v = c := by rw [ha, hv0]; exact max_self c
    rw [List.foldl_cons]
    exact ih (max a v) c hm (fun u hu => hv u (List.mem_cons_of_mem v hu))

theorem foldl_min_all_eq (t : List ℝ) :
    ∀ a c : ℝ, a = c → (∀ v ∈ t, v = c) → t.foldl min a = c := by
  induction t with
  | nil => intro a c ha _; simpa using ha
  | cons v t ih =>
    intro a c ha hv
    have hv0 : v = c := hv v (List.mem_cons_self v t)
    have hm : min a v = c := by rw [ha, hv0]; exact min_self c
    rw [List.foldl_cons]
    exact ih (min a v) c hm (fun u hu => hv u (List.mem_cons_of_mem v hu))

theorem listMax_all_eq (l : List ℝ) (c : ℝ) (h : l ≠ []) (ha : ∀ v ∈ l, v = c) :
    listMax l = c := by
  cases l with
  | nil => exact absurd rfl h
  | cons a t =>
    simp only [listMax]
    exact foldl_max_all_eq t a c (ha a (List.mem_cons_self a t))
      (fun v hv => ha v (List.mem_cons_of_mem a hv))

theorem listMin_all_eq (l : List ℝ) (c : ℝ) (h : l ≠ []) (ha : ∀ v ∈ l, v = c) :
    listMin l = c := by
  cases l with
  | nil => exact absurd rfl h
  | cons a t =>
    simp only [listMin]
    exact foldl_min_all_eq t a c (ha a (List.mem_cons_self a t))
      (fun v hv => ha v (List.mem_cons_of_mem a hv))

theorem euclid_eval_x (t1 t2 a b c : ℝ) (h : a ≤ b) :
    euclid ⟨t1, a, c⟩ ⟨t2, b, c⟩ = b - a := by
  show Real.sqrt ((b - a) ^ 2 + (c - c) ^ 2) = b - a
  have hz : (c - c : ℝ) ^ 2 = 0 := by norm_num
  rw [hz, add_zero, Real.sqrt_sq (sub_nonneg.mpr h)]

theorem euclid_eval_y (t1 t2 a c d : ℝ) (h : c ≤ d) :
    euclid ⟨t1, a, c⟩ ⟨t2, a, d⟩ = d - c := by
  show Real.sqrt ((a - a) ^ 2 + (d - c) ^ 2) = d - c
  have hz : (a - a : ℝ) ^ 2 = 0 := by norm_num
  rw [hz, zero_add, Real.sqrt_sq (sub_nonneg.mpr h)]

theorem sortByDate_pathA : sortByDate pathA = pathA := by
  apply List.mergeSort_of_sorted
  norm_num [pathA, List.pairwise_cons]

theorem sortByDate_pathB : sortByDate pathB = pathB := by
  apply List.mergeSort_of_sorted
  norm_num [pathB, List.pairwise_cons]

theorem sortByDate_pathStat : sortByDate pathStat = pathStat := by
  apply List.mergeSort_of_sorted
  norm_num [pathStat, List.pairwise_cons]

theorem sortByDate_pathD : sortByDate pathD = pathD := by
  apply List.mergeSort_of_sorted
  norm_num [pathD, List.pairwise_cons]

theorem sortByDate_pathE : sortByDate pathE = pathE := by
  apply List.mergeSort_of_sorted
  norm_num [pathE, List.pairwise_cons]

theorem cumDist_pathA : cumDist pathA = [0, 10, 20] := by
  norm_num [pathA, cumDist, cumDistFrom, euclid_eval_x]

theorem cumDist_pathB : cumDist pathB = [0, 20] := by
  norm_num [pathB, cumDist, cumDistFrom, euclid_eval_x]

theorem cumDist_pathStat : cumDist pathStat = [0, 0] := by
  norm_num [pathStat, cumDist, cumDistFrom, euclid_eval_x]

theorem cumDist_pathD : cumDist pathD = [0, 10] := by
  norm_num [pathD, cumDist, cumDistFrom, euclid_eval_x]

theorem cumDist_pathE : cumDist pathE = [0, 30] := by
  norm_num [pathE, cumDist, cumDistFrom, euclid_eval_y]

theorem datesMin_pathA : datesMin pathA = 0 := by
  norm_num [pathA, datesMin, min_eq_left]

theorem datesMin_pathB : datesMin pathB = 0 := by
  norm_num [pathB, datesMin, min_eq_left]

theorem datesMin_pathStat : datesMin pathStat = 0 := by
  norm_num [pathStat, datesMin, min_eq_left]

theorem datesMin_pathD : datesMin pathD = 0 := by
  norm_num [pathD, datesMin, min_eq_left]

theorem datesMin_pathE : datesMin pathE = 0 := by
  norm_num [pathE, datesMin, min_eq_left]

theorem profile_pathA : profile pathA =
    [⟨0, 0, 0, 0, 0, 0⟩, ⟨1, 10, 0, 1, 10, 50⟩, ⟨2, 20, 0, 2, 20, 100⟩] := by
  simp only [profile]
  rw [sortByDate_pathA, cumDist_pathA, datesMin_pathA]
  norm_num [pathA, listMax, max_eq_right, max_eq_left]

theorem profile_pathB : profile pathB =
    [⟨0, 0, 0, 0, 0, 0⟩, ⟨3, 20, 0, 3, 20, 100⟩] := by
  simp only [profile]
  rw [sortByDate_pathB, cumDist_pathB, datesMin_pathB]
  norm_num [pathB, listMax, max_eq_right, max_eq_left]

theorem profile_pathStat : profile pathStat =
    [⟨0, 0, 0, 0, 0, 0⟩, ⟨1, 0, 0, 1, 0, 0⟩] := by
  simp only [profile]
  rw [sortByDate_pathStat, cumDist_pathStat, datesMin_pathStat]
  norm_num [pathStat, listMax, max_eq_right, max_eq_left]

theorem profile_pathD : profile pathD =
    [⟨0, 0, 0, 0, 0, 0⟩, ⟨1, 10, 0, 1, 10, 100⟩] := by
  simp only [profile]
  rw [sortByDate_pathD, cumDist_pathD, datesMin_pathD]
  norm_num [pathD, listMax, max_eq_right, max_eq_left]

theorem profile_pathE : profile pathE =
    [⟨0, 0, 0, 0, 0, 0⟩, ⟨2, 0, 30, 2, 30, 100⟩] := by
  simp only [profile]
  rw [sortByDate_pathE, cumDist_pathE, datesMin_pathE]
  norm_num [pathE, listMax, max_eq_right, max_eq_left]

theorem calcAB_fst : (calculate_time_delta_by_position pathA pathB "A" "B").1 =
    [⟨0, 0, 0, 0, 0, 0, 0, "B"⟩, ⟨1, 10, 0, 1, 10, 50, 1, "B"⟩,
     ⟨2, 20, 0, 2, 20, 100, -1, "A"⟩] := by
  simp only [calculate_time_delta_by_position]
  rw [profile_pathA, profile_pathB]
  norm_num [annotate, nearest, nearestFrom]

theorem calcStat_fst :
    (calculate_time_delta_by_position pathStat pathStat "A" "B").1 =
    [⟨0, 0, 0, 0, 0, 0, 0, "B"⟩, ⟨1, 0, 0, 1, 0, 0, 1, "B"⟩] := by
  simp only [calculate_time_delta_by_position]
  rw [profile_pathStat]
  norm_num [annotate, nearest, nearestFrom]

theorem combinedFrame_pathDE : combinedFrame pathD pathE "D" "E" =
    [⟨0, 0, 0, 0, 0, 0, 0, "E"⟩, ⟨1, 10, 0, 1, 10, 100, -1, "D"⟩,
     ⟨0, 0, 0, 0, 0, 0, 0, "D"⟩, ⟨2, 0, 30, 2, 30, 100, 1, "D"⟩] := by
  simp only [combinedFrame, calculate_time_delta_by_position]
  rw [profile_pathD, profile_pathE]
  norm_num [annotate, nearest, nearestFrom]

/-- C6: for every pair of paths A and B with names a and b, the comparator
called as (A, B, a, b) and as (B, A, b, a) yields the same unordered pair
of annotated results: A's annotated result is identical whichever argument
position A occupies, and likewise B's. -/
theorem C6_unordered_pair_invariance :
    ∀ (A B : List Sample) (na nb : String),
      (calculate_time_delta_by_position A B na nb).1 =
        (calculate_time_delta_by_position B A nb na).2 ∧
      (calculate_time_delta_by_position A B na nb).2 =
        (calculate_time_delta_by_position B A nb na).1 :=
  fun _ _ _ _ => ⟨rfl, rfl⟩

/-- C4: a comparison of one empty and one non-empty path fails (returns
`none`, the model of the warning + `None` exit) with no partial result,
and normalizing an empty sample set returns an empty result. -/
theorem C4_empty_input_handling (l : List Sample) (n1 n2 : String) (h : l ≠ []) :
    plot_lap_comparison_on_track [] l n1 n2 = none ∧
    plot_lap_comparison_on_track l [] n1 n2 = none ∧
    normalize_coordinates [] = [] := by
  refine ⟨?_, ?_, ?_⟩
  · simp [plot_lap_comparison_on_track]
  · simp [plot_lap_comparison_on_track]
  · simp [normalize_coordinates]

theorem C4_empty_input_handling_witness :
    (pathStat ≠ []) ∧
    (plot_lap_comparison_on_track [] pathStat "A" "B" = none ∧
     plot_lap_comparison_on_track pathStat [] "A" "B" = none ∧
     normalize_coordinates [] = []) :=
  ⟨by simp [pathStat], C4_empty_input_handling pathStat "A" "B" (by simp [pathStat])⟩

/-- C3: for every requested (driver, lap) with a timing record, the lap
window ends at `start + lap_duration` when the duration is present, else
at the next lap's recorded start when that record exists, else at
`start + 120` seconds exactly — in that priority order. -/
theorem C3_lap_window_priority (lap_data : List LapRec) (d n : ℕ) (r : LapRec)
    (hfind : findLap lap_data d n = some r) :
    (∀ dur, r.lap_duration = some dur →
      fetch_location_for_lap lap_data d n =
        some (r.date_start, r.date_start + dur)) ∧
    (r.lap_duration = none →
      (∀ nxt, findLap lap_data d (n + 1) = some nxt →
        fetch_location_for_lap lap_data d n =
          some (r.date_start, nxt.date_start)) ∧
      (findLap lap_data d (n + 1) = none →
        fetch_location_for_lap lap_data d n =
          some (r.date_start, r.date_start + 120))) := by
  refine ⟨?_, ?_⟩
  · intro dur hdur
    simp [fetch_location_for_lap, hfind, hdur]
  · intro hnone
    refine ⟨?_, ?_⟩
    · intro nxt hnxt
      simp [fetch_location_for_lap, hfind, hnone, hnxt]
    · intro hmiss
      simp [fetch_location_for_lap, hfind, hnone, hmiss]

theorem C3_lap_window_priority_witness :
    (findLap lapDataW 44 5 = some ⟨44, 5, 100, none⟩) ∧
    ((⟨44, 5, 100, none⟩ : LapRec).lap_duration = none) ∧
    (findLap lapDataW 44 6 = none) ∧
    fetch_location_for_lap lapDataW 44 5 = some (100, 100 + 120) := by
  have hf : findLap lapDataW 44 5 = some ⟨44, 5, 100, none⟩ := by
    simp [findLap, lapDataW]
  have hn : findLap lapDataW 44 6 = none := by
    simp [findLap, lapDataW]
  exact ⟨hf, rfl, hn,
    ((C3_lap_window_priority lapDataW 44 5 ⟨44, 5, 100, none⟩ hf).2 rfl).2 hn⟩

/-- C2: counterexample to the claimed scenario outcome. On the spec's
concrete input (driver A at t = 0,1,2 s, x = 0,10,20; driver B at
t = 0,3 s, x = 0,20) the code yields time_delta = 1 and faster driver B
at A's midpoint sample, not time_delta = -2 with A faster: B's two
distance percentages 0 and 100 are equidistant from 50, and pandas
idxmin breaks the tie to the earliest index, 0. -/
theorem C2_scenario_counterexample :
    (((calculate_time_delta_by_position pathA pathB "A" "B").1.getD 1
        default).time_delta = 1) ∧
    (((calculate_time_delta_by_position pathA pathB "A" "B").1.getD 1
        default).faster_driver = "B") ∧
    ¬((((calculate_time_delta_by_position pathA pathB "A" "B").1.getD 1
        default).time_delta = -2) ∧
      (((calculate_time_delta_by_position pathA pathB "A" "B").1.getD 1
        default).faster_driver = "A")) := by
  rw [calcAB_fst]
  norm_num

/-- C2 (amended): on the scenario input, distance_pct is [0,50,100] for A
and [0,100] for B; A's midpoint sample at distance_pct = 50 is matched —
|50 - 0| = |100 - 50| is a tie, broken to the earliest index of B — to
B's sample at index 0 (distance_pct = 0), giving time_delta = 1 - 0 = 1
with B marked faster at that point. -/
theorem C2_scenario_amended :
    (profile pathA).map (fun s => s.distance_pct) = [0, 50, 100] ∧
    (profile pathB).map (fun s => s.distance_pct) = [0, 100] ∧
    nearest 50 (profile pathB) = (profile pathB).getD 0 default ∧
    (((calculate_time_delta_by_position pathA pathB "A" "B").1.getD 1
        default).time_delta = 1) ∧
    (((calculate_time_delta_by_position pathA pathB "A" "B").1.getD 1
        default).faster_driver = "B") := by
  refine ⟨?_, ?_, ?_, ?_, ?_⟩
  · rw [profile_pathA]; norm_num
  · rw [profile_pathB]; norm_num
  · rw [profile_pathB]; norm_num [nearest, nearestFrom]
  · rw [calcAB_fst]; norm_num
  · rw [calcAB_fst]; norm_num

/-- C7: counterexample. Comparing the stationary two-sample path against
an identical copy of itself does not give time_delta = 0 everywhere: both
samples sit at distance_pct = 0, so the second sample is matched to the
first row (earliest index at the tied minimum) and gets
time_delta = 1 - 0 = 1. -/
theorem C7_self_comparison_counterexample :
    ((calculate_time_delta_by_position pathStat pathStat "A" "B").1.getD 1
      default).time_delta = 1 ∧ (1 : ℝ) ≠ 0 := by
  rw [calcStat_fst]
  norm_num

theorem isEmpty_false_of_ne_nil {α : Type} (l : List α) (h : l ≠ []) :
    l.isEmpty = false := by
  cases l with
  | nil => exact absurd rfl h
  | cons a t => rfl

theorem profile_ne_nil (l : List Sample) (h : l ≠ []) : profile l ≠ [] := by
  intro hc
  have hlen := congrArg List.length hc
  rw [profile_length, sortByDate_length] at hlen
  exact h (List.length_eq_zero.mp hlen)

theorem sortByDate_ne_nil (l : List Sample) (h : l ≠ []) : sortByDate l ≠ [] := by
  intro hc
  have hlen := congrArg List.length hc
  rw [sortByDate_length] at hlen
  exact h (List.length_eq_zero.mp hlen)

theorem profile_head_zero (l : List Sample) (h : l ≠ []) :
    ((profile l).getD 0 default).elapsed_time = 0 ∧
    ((profile l).getD 0 default).distance_pct = 0 := by
  have hm : sortByDate l ≠ [] := sortByDate_ne_nil l h
  have h0 : 0 < (sortByDate l).length := List.length_pos.mpr hm
  rw [profile_getD l 0 h0]
  constructor
  · show ((sortByDate l).getD 0 default).date - datesMin (sortByDate l) = 0
    rw [datesMin_of_sorted (sortByDate l) (sortByDate_pairwise l) hm]
    exact sub_self _
  · show (if 0 < listMax (cumDist (sortByDate l)) then
        (cumDist (sortByDate l)).getD 0 0 / listMax (cumDist (sortByDate l)) * 100
      else 0) = 0
    rw [cumDist_getD_zero (sortByDate l) hm]
    split
    · simp
    · rfl

theorem nearest_eq_head (t : ℝ) (l : List ProfSample) (h : l ≠ [])
    (h0 : |(l.getD 0 default).distance_pct - t| = 0) :
    nearest t l = l.getD 0 default := by
  obtain ⟨k, hk, heq, hmin, hbefore⟩ := nearest_spec t l h
  cases k with
  | zero => exact heq
  | succ k2 =>
    exfalso
    have hb := hbefore 0 (Nat.succ_pos k2)
    rw [h0] at hb
    exact absurd hb (not_lt.mpr (abs_nonneg _))

theorem annotate_head_zero (p q : List ProfSample) (a b : String)
    (hp : p ≠ []) (hq : q ≠ [])
    (hp0e : (p.getD 0 default).elapsed_time = 0)
    (hp0p : (p.getD 0 default).distance_pct = 0)
    (hq0e : (q.getD 0 default).elapsed_time = 0)
    (hq0p : (q.getD 0 default).distance_pct = 0) :
    ((annotate p q a b).getD 0 default).time_delta = 0 ∧
    ((annotate p q a b).getD 0 default).faster_driver = b := by
  have hlp : 0 < p.length := List.length_pos.mpr hp
  have hne : nearest (p.getD 0 default).distance_pct q = q.getD 0 default := by
    apply nearest_eq_head _ _ hq
    rw [hq0p, hp0p]
    simp
  rw [annotate_getD p q a b 0 hlp]
  constructor
  · show (p.getD 0 default).elapsed_time -
        (nearest (p.getD 0 default).distance_pct q).elapsed_time = 0
    rw [hne, hp0e, hq0e, sub_zero]
  · show (if (p.getD 0 default).elapsed_time -
        (nearest (p.getD 0 default).distance_pct q).elapsed_time < 0
      then a else b) = b
    rw [hne, hp0e, hq0e]
    norm_num

/-- C10: for every pair of non-empty input paths, the chronologically first
sample of each returned annotated path has time_delta = 0 and
faster_driver set to the opponent's name: both paths start at
distance_pct = 0 and elapsed_time = 0, the first sample of one path is
matched to the first sample of the other, and the zero-delta tie goes to
the opponent. -/
theorem C10_first_sample_tie (A B : List Sample) (na nb : String)
    (hA : A ≠ []) (hB : B ≠ []) :
    0 < (calculate_time_delta_by_position A B na nb).1.length ∧
    0 < (calculate_time_delta_by_position A B na nb).2.length ∧
    ((calculate_time_delta_by_position A B na nb).1.getD 0 default).time_delta = 0 ∧
    ((calculate_time_delta_by_position A B na nb).1.getD 0 default).faster_driver = nb ∧
    ((calculate_time_delta_by_position A B na nb).2.getD 0 default).time_delta = 0 ∧
    ((calculate_time_delta_by_position A B na nb).2.getD 0 default).faster_driver = na := by
  have hpA : profile A ≠ [] := profile_ne_nil A hA
  have hpB : profile B ≠ [] := profile_ne_nil B hB
  obtain ⟨hAe, hAp⟩ := profile_head_zero A hA
  obtain ⟨hBe, hBp⟩ := profile_head_zero B hB
  have h1 := annotate_head_zero (profile A) (profile B) na nb hpA hpB hAe hAp hBe hBp
  have h2 := annotate_head_zero (profile B) (profile A) nb na hpB hpA hBe hBp hAe hAp
  refine ⟨?_, ?_, h1.1, h1.2, h2.1, h2.2⟩
  · show 0 < (annotate (profile A) (profile B) na nb).length
    rw [annotate_length]
    exact List.length_pos.mpr hpA
  · show 0 < (annotate (profile B) (profile A) nb na).length
    rw [annotate_length]
    exact List.length_pos.mpr hpB

theorem C10_first_sample_tie_witness :
    (pathD ≠ []) ∧ (pathE ≠ []) ∧
    (0 < (calculate_time_delta_by_position pathD pathE "D" "E").1.length ∧
     0 < (calculate_time_delta_by_position pathD pathE "D" "E").2.length ∧
     ((calculate_time_delta_by_position pathD pathE "D" "E").1.getD 0
        default).time_delta = 0 ∧
     ((calculate_time_delta_by_position pathD pathE "D" "E").1.getD 0
        default).faster_driver = "E" ∧
     ((calculate_time_delta_by_position pathD pathE "D" "E").2.getD 0
        default).time_delta = 0 ∧
     ((calculate_time_delta_by_position pathD pathE "D" "E").2.getD 0
        default).faster_driver = "D") :=
  ⟨by simp [pathD], by simp [pathE],
    C10_first_sample_tie pathD pathE "D" "E" (by simp [pathD]) (by simp [pathE])⟩

theorem annotate_spec (p q : List ProfSample) (a b : String) (hq : q ≠ []) :
    ∀ i, i < p.length → ∃ k, k < q.length ∧
      (∀ j, j < q.length →
        |(q.getD k default).distance_pct - (p.getD i default).distance_pct| ≤
          |(q.getD j default).distance_pct - (p.getD i default).distance_pct|) ∧
      (∀ j, j < k →
        |(q.getD k default).distance_pct - (p.getD i default).distance_pct| <
          |(q.getD j default).distance_pct - (p.getD i default).distance_pct|) ∧
      ((annotate p q a b).getD i default).time_delta =
        (p.getD i default).elapsed_time - (q.getD k default).elapsed_time ∧
      ((annotate p q a b).getD i default).faster_driver =
        (if ((annotate p q a b).getD i default).time_delta < 0 then a else b) := by
  intro i hi
  obtain ⟨k, hk, heq, hmin, hbefore⟩ :=
    nearest_spec ((p.getD i default).distance_pct) q hq
  refine ⟨k, hk, hmin, hbefore, ?_, ?_⟩
  · rw [annotate_getD p q a b i hi]
    show (p.getD i default).elapsed_time -
        (nearest (p.getD i default).distance_pct q).elapsed_time =
      (p.getD i default).elapsed_time - (q.getD k default).elapsed_time
    rw [heq]
  · rw [annotate_getD p q a b i hi]

/-- C1: for every pair of non-empty paths and every sample of path A, the
comparator matches the sample to the opponent sample whose distance_pct
has minimum absolute difference, breaking ties by the earliest index;
it sets time_delta to this sample's elapsed_time minus the matched
sample's elapsed_time, and faster_driver to name A exactly when
time_delta < 0, else name B (a zero delta goes to the opponent); the
symmetric computation is performed independently for every sample of
path B. -/
theorem C1_nearest_match (A B : List Sample) (na nb : String)
    (hA : A ≠ []) (hB : B ≠ []) :
    (∀ i, i < (profile A).length → ∃ k, k < (profile B).length ∧
      (∀ j, j < (profile B).length →
        |((profile B).getD k default).distance_pct -
            ((profile A).getD i default).distance_pct| ≤
          |((profile B).getD j default).distance_pct -
            ((profile A).getD i default).distance_pct|) ∧
      (∀ j, j < k →
        |((profile B).getD k default).distance_pct -
            ((profile A).getD i default).distance_pct| <
          |((profile B).getD j default).distance_pct -
            ((profile A).getD i default).distance_pct|) ∧
      ((calculate_time_delta_by_position A B na nb).1.getD i default).time_delta =
        ((profile A).getD i default).elapsed_time -
          ((profile B).getD k default).elapsed_time ∧
      ((calculate_time_delta_by_position A B na nb).1.getD i default).faster_driver =
        (if ((calculate_time_delta_by_position A B na nb).1.getD i
            default).time_delta < 0 then na else nb)) ∧
    (∀ i, i < (profile B).length → ∃ k, k < (profile A).length ∧
      (∀ j, j < (profile A).length →
        |((profile A).getD k default).distance_pct -
            ((profile B).getD i default).distance_pct| ≤
          |((profile A).getD j default).distance_pct -
            ((profile B).getD i default).distance_pct|) ∧
      (∀ j, j < k →
        |((profile A).getD k default).distance_pct -
            ((profile B).getD i default).distance_pct| <
          |((profile A).getD j default).distance_pct -
            ((profile B).getD i default).distance_pct|) ∧
      ((calculate_time_delta_by_position A B na nb).2.getD i default).time_delta =
        ((profile B).getD i default).elapsed_time -
          ((profile A).getD k default).elapsed_time ∧
      ((calculate_time_delta_by_position A B na nb).2.getD i default).faster_driver =
        (if ((calculate_time_delta_by_position A B na nb).2.getD i
            default).time_delta < 0 then nb else na)) := by
  have hpA : profile A ≠ [] := profile_ne_nil A hA
  have hpB : profile B ≠ [] := profile_ne_nil B hB
  exact ⟨annotate_spec (profile A) (profile B) na nb hpB,
    annotate_spec (profile B) (profile A) nb na hpA⟩

theorem C1_nearest_match_witness :
    (pathD ≠ []) ∧ (pathE ≠ []) ∧ (0 < (profile pathD).length) ∧
    (∃ k, k < (profile pathE).length ∧
      (∀ j, j < (profile pathE).length →
        |((profile pathE).getD k default).distance_pct -
            ((profile pathD).getD 0 default).distance_pct| ≤
          |((profile pathE).getD j default).distance_pct -
            ((profile pathD).getD 0 default).distance_pct|) ∧
      (∀ j, j < k →
        |((profile pathE).getD k default).distance_pct -
            ((profile pathD).getD 0 default).distance_pct| <
          |((profile pathE).getD j default).distance_pct -
            ((profile pathD).getD 0 default).distance_pct|) ∧
      ((calculate_time_delta_by_position pathD pathE "D" "E").1.getD 0
          default).time_delta =
        ((profile pathD).getD 0 default).elapsed_time -
          ((profile pathE).getD k default).elapsed_time ∧
      ((calculate_time_delta_by_position pathD pathE "D" "E").1.getD 0
          default).faster_driver =
        (if ((calculate_time_delta_by_position pathD pathE "D" "E").1.getD 0
            default).time_delta < 0 then "D" else "E")) := by
  have hD : pathD ≠ [] := by simp [pathD]
  have hE : pathE ≠ [] := by simp [pathE]
  have h0 : 0 < (profile pathD).length := by
    rw [profile_pathD]
    norm_num
  exact ⟨hD, hE, h0, (C1_nearest_match pathD pathE "D" "E" hD hE).1 0 h0⟩

/-- C5: for every input sample sequence, after sorting ascending by
timestamp the profiled path satisfies: elapsed_time[i] = timestamp[i] -
timestamp[0] (so elapsed_time[0] = 0); cumulative_distance[0] = 0 and
cumulative_distance[i+1] = cumulative_distance[i] + the Euclidean step
between consecutive sorted samples; and distance_pct[i] =
cumulative_distance[i] / max(cumulative_distance) * 100 when the maximum
is positive, else 0 for all i. -/
theorem C5_profile_fields (l : List Sample) :
    (profile l).length = (sortByDate l).length ∧
    (∀ i, i < (profile l).length →
      ((profile l).getD i default).elapsed_time =
        ((sortByDate l).getD i default).date -
          ((sortByDate l).getD 0 default).date) ∧
    (0 < (profile l).length → ((profile l).getD 0 default).distance = 0) ∧
    (∀ i, i + 1 < (profile l).length →
      ((profile l).getD (i + 1) default).distance =
        ((profile l).getD i default).distance +
          euclid ((sortByDate l).getD i default)
            ((sortByDate l).getD (i + 1) default)) ∧
    (∀ i, i < (profile l).length →
      ((profile l).getD i default).distance_pct =
        (if 0 < listMax (cumDist (sortByDate l)) then
          ((profile l).getD i default).distance /
            listMax (cumDist (sortByDate l)) * 100
        else 0)) := by
  refine ⟨profile_length l, ?_, ?_, ?_, ?_⟩
  · intro i hi
    have him : i < (sortByDate l).length := by rw [← profile_length]; exact hi
    have hm : sortByDate l ≠ [] :=
      List.length_pos.mp (lt_of_le_of_lt (Nat.zero_le i) him)
    rw [profile_getD l i him]
    show ((sortByDate l).getD i default).date - datesMin (sortByDate l) =
      ((sortByDate l).getD i default).date - ((sortByDate l).getD 0 default).date
    rw [datesMin_of_sorted (sortByDate l) (sortByDate_pairwise l) hm]
  · intro h0
    have hm0 : 0 < (sortByDate l).length := by rw [← profile_length]; exact h0
    have hm : sortByDate l ≠ [] := List.length_pos.mp hm0
    rw [profile_getD l 0 hm0]
    show (cumDist (sortByDate l)).getD 0 0 = 0
    exact cumDist_getD_zero (sortByDate l) hm
  · intro i hi
    have him1 : i + 1 < (sortByDate l).length := by rw [← profile_length]; exact hi
    have him : i < (sortByDate l).length := Nat.lt_of_succ_lt him1
    rw [profile_getD l (i + 1) him1, profile_getD l i him]
    show (cumDist (sortByDate l)).getD (i + 1) 0 =
      (cumDist (sortByDate l)).getD i 0 +
        euclid ((sortByDate l).getD i default) ((sortByDate l).getD (i + 1) default)
    exact cumDist_getD_succ (sortByDate l) i him1
  · intro i hi
    have him : i < (sortByDate l).length := by rw [← profile_length]; exact hi
    rw [profile_getD l i him]

theorem C5_profile_fields_witness :
    (1 < (profile pathA).length) ∧ (0 + 1 < (profile pathA).length) ∧
    ((profile pathA).getD 1 default).elapsed_time =
      ((sortByDate pathA).getD 1 default).date -
        ((sortByDate pathA).getD 0 default).date ∧
    ((profile pathA).getD (0 + 1) default).distance =
      ((profile pathA).getD 0 default).distance +
        euclid ((sortByDate pathA).getD 0 default)
          ((sortByDate pathA).getD (0 + 1) default) := by
  have h1 : 1 < (profile pathA).length := by
    rw [profile_pathA]
    norm_num
  have h01 : 0 + 1 < (profile pathA).length := by
    rw [profile_pathA]
    norm_num
  exact ⟨h1, h01, (C5_profile_fields pathA).2.1 1 h1,
    (C5_profile_fields pathA).2.2.2.1 0 h01⟩

theorem annotate_self_zero (p : List ProfSample) (a b : String) (hp : p ≠ [])
    (hinj : ∀ i j, i < p.length → j < p.length → i ≠ j →
      (p.getD i default).distance_pct ≠ (p.getD j default).distance_pct) :
    ∀ i, i < p.length →
      ((annotate p p a b).getD i default).time_delta = 0 ∧
      ((annotate p p a b).getD i default).faster_driver = b := by
  intro i hi
  obtain ⟨k, hk, heq, hmin, hbefore⟩ :=
    nearest_spec ((p.getD i default).distance_pct) p hp
  have hle := hmin i hi
  rw [sub_self, abs_zero] at hle
  have h0 : |(p.getD k default).distance_pct - (p.getD i default).distance_pct| = 0 :=
    le_antisymm hle (abs_nonneg _)
  have hpcteq : (p.getD k default).distance_pct = (p.getD i default).distance_pct :=
    sub_eq_zero.mp (abs_eq_zero.mp h0)
  have hki : k = i := by
    by_contra hne
    exact hinj k i hk hi hne hpcteq
  have heq2 : nearest ((p.getD i default).distance_pct) p = p.getD i default := by
    rw [heq, hki]
  constructor
  · rw [annotate_getD p p a b i hi]
    show (p.getD i default).elapsed_time -
        (nearest (p.getD i default).distance_pct p).elapsed_time = 0
    rw [heq2, sub_self]
  · rw [annotate_getD p p a b i hi]
    show (if (p.getD i default).elapsed_time -
        (nearest (p.getD i default).distance_pct p).elapsed_time < 0
      then a else b) = b
    rw [heq2, sub_self]
    norm_num

/-- C7 (amended): comparing a path against an identical copy of itself
yields time_delta = 0 with faster_driver the opponent's name for every
sample on both sides, provided the path's distance_pct values are
pairwise distinct (so each sample's nearest match is itself). Without
that proviso the claim fails: with repeated distance_pct values the
earliest-index tie-break matches a later sample to an earlier one with a
different elapsed time (see the counterexample). -/
theorem C7_self_comparison_amended (P : List Sample) (a b : String) (hP : P ≠ [])
    (hinj : ∀ i j, i < (profile P).length → j < (profile P).length → i ≠ j →
      ((profile P).getD i default).distance_pct ≠
        ((profile P).getD j default).distance_pct) :
    (∀ i, i < (profile P).length →
      ((calculate_time_delta_by_position P P a b).1.getD i default).time_delta = 0 ∧
      ((calculate_time_delta_by_position P P a b).1.getD i default).faster_driver = b) ∧
    (∀ i, i < (profile P).length →
      ((calculate_time_delta_by_position P P a b).2.getD i default).time_delta = 0 ∧
      ((calculate_time_delta_by_position P P a b).2.getD i default).faster_driver = a) := by
  have hp : profile P ≠ [] := profile_ne_nil P hP
  exact ⟨annotate_self_zero (profile P) a b hp hinj,
    annotate_self_zero (profile P) b a hp hinj⟩

theorem C7_self_comparison_amended_witness :
    (pathD ≠ []) ∧
    (∀ i j, i < (profile pathD).length → j < (profile pathD).length → i ≠ j →
      ((profile pathD).getD i default).distance_pct ≠
        ((profile pathD).getD j default).distance_pct) ∧
    (∀ i, i < (profile pathD).length →
      ((calculate_time_delta_by_position pathD pathD "A" "B").1.getD i
        default).time_delta = 0 ∧
      ((calculate_time_delta_by_position pathD pathD "A" "B").1.getD i
        default).faster_driver = "B") := by
  have hD : pathD ≠ [] := by simp [pathD]
  have hinjD : ∀ i j, i < (profile pathD).length → j < (profile pathD).length →
      i ≠ j → ((profile pathD).getD i default).distance_pct ≠
        ((profile pathD).getD j default).distance_pct := by
    intro i j hi hj hne
    rw [profile_pathD] at hi hj
    simp only [List.length_cons, List.length_nil] at hi hj
    interval_cases i <;> interval_cases j <;>
      first
        | exact absurd rfl hne
        | norm_num [profile_pathD]
  exact ⟨hD, hinjD, (C7_self_comparison_amended pathD "A" "B" hD hinjD).1⟩

theorem normalize_coordinates_eq (l : List LocRow) (hl : l ≠ [])
    (hk : dropna l ≠ []) :
    normalize_coordinates l =
      (dropna l).map (fun p =>
        ⟨p.1, p.2,
         (p.1 - listMin ((dropna l).map Prod.fst)) /
           (if listMax ((dropna l).map Prod.fst) ≠
                listMin ((dropna l).map Prod.fst)
            then listMax ((dropna l).map Prod.fst) -
              listMin ((dropna l).map Prod.fst)
            else 1),
         (p.2 - listMin ((dropna l).map Prod.snd)) /
           (if listMax ((dropna l).map Prod.snd) ≠
                listMin ((dropna l).map Prod.snd)
            then listMax ((dropna l).map Prod.snd) -
              listMin ((dropna l).map Prod.snd)
            else 1)⟩) := by
  simp only [normalize_coordinates, isEmpty_false_of_ne_nil l hl,
    isEmpty_false_of_ne_nil (dropna l) hk, Bool.false_eq_true, if_false]

/-- C8: for every input whose surviving (coordinate-complete) rows are
non-empty and all share one x value, normalization raises no
division-by-zero (the divisor is fixed at 1 in the code) and yields
x_norm = 0 for every output row; the same rule applies to y. -/
theorem C8_degenerate_range (l : List LocRow) (hk : dropna l ≠ []) :
    ((∀ p, p ∈ dropna l → ∀ q, q ∈ dropna l → p.1 = q.1) →
      ∀ r, r ∈ normalize_coordinates l → r.x_norm = 0) ∧
    ((∀ p, p ∈ dropna l → ∀ q, q ∈ dropna l → p.2 = q.2) →
      ∀ r, r ∈ normalize_coordinates l → r.y_norm = 0) := by
  have hl : l ≠ [] := by
    intro hc
    rw [hc] at hk
    exact hk rfl
  obtain ⟨p0, kt, hkeq⟩ : ∃ p0 kt, dropna l = p0 :: kt := by
    cases hdk : dropna l with
    | nil => exact absurd hdk hk
    | cons p0 kt => exact ⟨p0, kt, rfl⟩
  have hp0mem : p0 ∈ dropna l := by
    rw [hkeq]
    exact List.mem_cons_self p0 kt
  rw [normalize_coordinates_eq l hl hk]
  constructor
  · intro hx r hr
    obtain ⟨p, hp, rfl⟩ := List.mem_map.mp hr
    have hall : ∀ v ∈ (dropna l).map Prod.fst, v = p0.1 := by
      intro v hv
      obtain ⟨q, hq, rfl⟩ := List.mem_map.mp hv
      exact hx q hq p0 hp0mem
    have hmapne : (dropna l).map Prod.fst ≠ [] := by
      rw [hkeq]
      simp
    have hmax : listMax ((dropna l).map Prod.fst) = p0.1 :=
      listMax_all_eq _ _ hmapne hall
    have hmin2 : listMin ((dropna l).map Prod.fst) = p0.1 :=
      listMin_all_eq _ _ hmapne hall
    dsimp only
    rw [hmax, hmin2, if_neg (by simp), hx p hp p0 hp0mem, sub_self, zero_div]
  · intro hy r hr
    obtain ⟨p, hp, rfl⟩ := List.mem_map.mp hr
    have hall : ∀ v ∈ (dropna l).map Prod.snd, v = p0.2 := by
      intro v hv
      obtain ⟨q, hq, rfl⟩ := List.mem_map.mp hv
      exact hy q hq p0 hp0mem
    have hmapne : (dropna l).map Prod.snd ≠ [] := by
      rw [hkeq]
      simp
    have hmax : listMax ((dropna l).map Prod.snd) = p0.2 :=
      listMax_all_eq _ _ hmapne hall
    have hmin2 : listMin ((dropna l).map Prod.snd) = p0.2 :=
      listMin_all_eq _ _ hmapne hall
    dsimp only
    rw [hmax, hmin2, if_neg (by simp), hy p hp p0 hp0mem, sub_self, zero_div]

theorem C8_degenerate_range_witness :
    (dropna rowsW ≠ []) ∧
    (∀ p, p ∈ dropna rowsW → ∀ q, q ∈ dropna rowsW → p.1 = q.1) ∧
    (∀ r, r ∈ normalize_coordinates rowsW → r.x_norm = 0) := by
  have hk : dropna rowsW ≠ [] := by simp [dropna, rowsW]
  have hx : ∀ p, p ∈ dropna rowsW → ∀ q, q ∈ dropna rowsW → p.1 = q.1 := by
    intro p hp q hq
    simp [dropna, rowsW] at hp hq
    rcases hp with rfl | rfl <;> rcases hq with rfl | rfl <;> norm_num
  exact ⟨hk, hx, (C8_degenerate_range rowsW hk).1 hx⟩

theorem dropna_map_coords (cs : List AnnotSample) :
    dropna (cs.map (fun s => (⟨some s.x, some s.y⟩ : LocRow))) =
      cs.map (fun s => (s.x, s.y)) := by
  rw [dropna, List.filterMap_map]
  exact congrFun (List.filterMap_eq_map (fun s : AnnotSample => (s.x, s.y))) cs

/-- C9: for every two-driver comparison of non-empty (and
non-degenerate-range) inputs, the min/max used for x_norm and y_norm are
taken over the union of both drivers' processed samples — one shared
coordinate frame — and every output row of either driver satisfies
x_norm = (x - x_min_union) / (x_max_union - x_min_union), likewise y. -/
theorem C9_union_normalization (A B : List Sample) (na nb : String)
    (hA : A ≠ []) (hB : B ≠ [])
    (hx : listMax ((combinedFrame A B na nb).map (fun s => s.x)) ≠
      listMin ((combinedFrame A B na nb).map (fun s => s.x)))
    (hy : listMax ((combinedFrame A B na nb).map (fun s => s.y)) ≠
      listMin ((combinedFrame A B na nb).map (fun s => s.y))) :
    plot_lap_comparison_on_track A B na nb =
      some ((combinedFrame A B na nb).map (fun s =>
        ⟨s.x, s.y,
         (s.x - listMin ((combinedFrame A B na nb).map (fun u => u.x))) /
           (listMax ((combinedFrame A B na nb).map (fun u => u.x)) -
             listMin ((combinedFrame A B na nb).map (fun u => u.x))),
         (s.y - listMin ((combinedFrame A B na nb).map (fun u => u.y))) /
           (listMax ((combinedFrame A B na nb).map (fun u => u.y)) -
             listMin ((combinedFrame A B na nb).map (fun u => u.y)))⟩)) := by
  have h1 : 0 < (calculate_time_delta_by_position A B na nb).1.length := by
    show 0 < (annotate (profile A) (profile B) na nb).length
    rw [annotate_length, profile_length, sortByDate_length]
    exact List.length_pos.mpr hA
  have hcfne : combinedFrame A B na nb ≠ [] := by
    intro hc
    have hlen := congrArg List.length hc
    rw [combinedFrame, List.length_append] at hlen
    simp only [List.length_nil] at hlen
    omega
  have hcombne : (combinedFrame A B na nb).map
      (fun s => (⟨some s.x, some s.y⟩ : LocRow)) ≠ [] := by
    simp only [ne_eq, List.map_eq_nil]
    exact hcfne
  have hkept := dropna_map_coords (combinedFrame A B na nb)
  have hkeptne : (combinedFrame A B na nb).map (fun s => (s.x, s.y)) ≠ [] := by
    simp only [ne_eq, List.map_eq_nil]
    exact hcfne
  have hfst : ((combinedFrame A B na nb).map (fun s => (s.x, s.y))).map Prod.fst =
      (combinedFrame A B na nb).map (fun s => s.x) := by
    rw [List.map_map]
    rfl
  have hsnd : ((combinedFrame A B na nb).map (fun s => (s.x, s.y))).map Prod.snd =
      (combinedFrame A B na nb).map (fun s => s.y) := by
    rw [List.map_map]
    rfl
  have hresne : (combinedFrame A B na nb).map (fun s =>
      (⟨s.x, s.y,
        (s.x - listMin ((combinedFrame A B na nb).map (fun u => u.x))) /
          (listMax ((combinedFrame A B na nb).map (fun u => u.x)) -
            listMin ((combinedFrame A B na nb).map (fun u => u.x))),
        (s.y - listMin ((combinedFrame A B na nb).map (fun u => u.y))) /
          (listMax ((combinedFrame A B na nb).map (fun u => u.y)) -
            listMin ((combinedFrame A B na nb).map (fun u => u.y)))⟩ : NormRow)) ≠ [] := by
    simp only [ne_eq, List.map_eq_nil]
    exact hcfne
  have hnorm : normalize_coordinates ((combinedFrame A B na nb).map
      (fun s => (⟨some s.x, some s.y⟩ : LocRow))) =
      (combinedFrame A B na nb).map (fun s =>
        ⟨s.x, s.y,
         (s.x - listMin ((combinedFrame A B na nb).map (fun u => u.x))) /
           (listMax ((combinedFrame A B na nb).map (fun u => u.x)) -
             listMin ((combinedFrame A B na nb).map (fun u => u.x))),
         (s.y - listMin ((combinedFrame A B na nb).map (fun u => u.y))) /
           (listMax ((combinedFrame A B na nb).map (fun u => u.y)) -
             listMin ((combinedFrame A B na nb).map (fun u => u.y)))⟩) := by
    rw [normalize_coordinates_eq _ hcombne (by rw [hkept]; exact hkeptne)]
    rw [hkept, hfst, hsnd, if_pos hx, if_pos hy, List.map_map]
    rfl
  simp only [plot_lap_comparison_on_track, isEmpty_false_of_ne_nil A hA,
    isEmpty_false_of_ne_nil B hB, Bool.or_self, Bool.false_eq_true, if_false]
  rw [hnorm, isEmpty_false_of_ne_nil _ hresne]
  simp

theorem C9_union_normalization_witness :
    (pathD ≠ []) ∧ (pathE ≠ []) ∧
    (listMax ((combinedFrame pathD pathE "D" "E").map (fun s => s.x)) ≠
      listMin ((combinedFrame pathD pathE "D" "E").map (fun s => s.x))) ∧
    (listMax ((combinedFrame pathD pathE "D" "E").map (fun s => s.y)) ≠
      listMin ((combinedFrame pathD pathE "D" "E").map (fun s => s.y))) ∧
    (∃ rows, plot_lap_comparison_on_track pathD pathE "D" "E" = some rows) := by
  have hD : pathD ≠ [] := by simp [pathD]
  have hE : pathE ≠ [] := by simp [pathE]
  have hx : listMax ((combinedFrame pathD pathE "D" "E").map (fun s => s.x)) ≠
      listMin ((combinedFrame pathD pathE "D" "E").map (fun s => s.x)) := by
    rw [combinedFrame_pathDE]
    norm_num [listMax, listMin, max_eq_right, max_eq_left, min_eq_left, min_eq_right]
  have hy : listMax ((combinedFrame pathD pathE "D" "E").map (fun s => s.y)) ≠
      listMin ((combinedFrame pathD pathE "D" "E").map (fun s => s.y)) := by
    rw [combinedFrame_pathDE]
    norm_num [listMax, listMin, max_eq_right, max_eq_left, min_eq_left, min_eq_right]
  exact ⟨hD, hE, hx, hy,
    ⟨_, C9_union_normalization pathD pathE "D" "E" hD hE hx hy⟩⟩
